import Mathlib

/-!
Shallow embedding of the MAX7219 display-driver crate (`src/lib.rs`).

Pure helpers (`ssb_byte`, `bcd_byte`, `base_10_bytes`, `hex_bytes`,
`pad_left`) are translated directly. The stateful driver `Max7219<SPI>`
is embedded as a record holding the cached decode mode together with the
trace of two-byte register writes attempted on the SPI bus; the bus
itself is modelled as an oracle assigning to the n-th write attempt
either success (`none`) or a transport error (`some e`). Every operation
returns the Rust `Result` as an `Except` paired with the updated state.
-/

/-- `MAX_DIGITS` from the source: digits per display. -/
def MAX_DIGITS : Nat := 8

/-- The `Command` register enum; each constructor carries its chip
register address via `Command.toU8`. -/
inductive Command where
  | Noop | Digit0 | Digit1 | Digit2 | Digit3 | Digit4 | Digit5 | Digit6
  | Digit7 | DecodeMode | Intensity | ScanLimit | Power | DisplayTest
deriving DecidableEq, Repr

/-- `impl From<Command> for u8`: the discriminant values of the enum. -/
def Command.toU8 : Command → Nat
  | .Noop => 0x00
  | .Digit0 => 0x01
  | .Digit1 => 0x02
  | .Digit2 => 0x03
  | .Digit3 => 0x04
  | .Digit4 => 0x05
  | .Digit5 => 0x06
  | .Digit6 => 0x07
  | .Digit7 => 0x08
  | .DecodeMode => 0x09
  | .Intensity => 0x0A
  | .ScanLimit => 0x0B
  | .Power => 0x0C
  | .DisplayTest => 0x0F

/-- The `DecodeMode` enum of the source. -/
inductive DecodeMode where
  | NoDecode | CodeBDigit0 | CodeBDigits3_0 | CodeBDigits7_0
deriving DecidableEq, Repr

/-- `DecodeMode as u8`: the discriminant values. -/
def DecodeMode.toU8 : DecodeMode → Nat
  | .NoDecode => 0x00
  | .CodeBDigit0 => 0x01
  | .CodeBDigits3_0 => 0x0F
  | .CodeBDigits7_0 => 0xFF

/-- `fn ssb_byte(b: u8, dot: bool) -> u8`: translate an ASCII byte into a
segment-set byte; `dot` ORs in bit 7 afterwards. Byte patterns are kept
verbatim from the source match. -/
def ssb_byte (b : Nat) (dot : Bool) : Nat :=
  let result : Nat :=
    match b with
    | 32 => 0b00000000  -- ' ' "blank"
    | 46 => 0b10000000  -- '.'
    | 45 => 0b00000001  -- '-'
    | 95 => 0b00001000  -- '_'
    | 48 => 0b01111110  -- '0'
    | 49 => 0b00110000  -- '1'
    | 50 => 0b01101101  -- '2'
    | 51 => 0b01111001  -- '3'
    | 52 => 0b00110011  -- '4'
    | 53 => 0b01011011  -- '5'
    | 54 => 0b01011111  -- '6'
    | 55 => 0b01110000  -- '7'
    | 56 => 0b01111111  -- '8'
    | 57 => 0b01111011  -- '9'
    | 97 | 65 => 0b01110111   -- 'a' | 'A'
    | 98 => 0b00011111        -- 'b'
    | 99 | 67 => 0b01001110   -- 'c' | 'C'
    | 100 => 0b00111101       -- 'd'
    | 101 | 69 => 0b01001111  -- 'e' | 'E'
    | 102 | 70 => 0b01000111  -- 'f' | 'F'
    | 103 | 71 => 0b01011110  -- 'g' | 'G'
    | 104 | 72 => 0b00110111  -- 'h' | 'H'
    | 105 | 73 => 0b00110000  -- 'i' | 'I'
    | 106 | 74 => 0b00111100  -- 'j' | 'J'
    | 108 | 76 => 0b00001110  -- 'l' | 'L'
    | 110 | 78 => 0b00010101  -- 'n' | 'N'
    | 111 | 79 => 0b01111110  -- 'o' | 'O'
    | 112 | 80 => 0b01100111  -- 'p' | 'P'
    | 113 => 0b01110011       -- 'q'
    | 114 | 82 => 0b00000101  -- 'r' | 'R'
    | 115 | 83 => 0b01011011  -- 's' | 'S'
    | 117 | 85 => 0b00111110  -- 'u' | 'U'
    | _ => 0b11100101         -- ?
  if dot then result ||| 0b10000000 else result

/-- `fn bcd_byte(b: u8) -> u8`: translate ASCII into the BCD codes the
chip expects; unmatched bytes pass through unchanged. -/
def bcd_byte (b : Nat) : Nat :=
  match b with
  | 32 => 0b00001111   -- ' ' "blank"
  | 45 => 0b00001010   -- '-' without .
  | 101 => 0b00001011  -- 'e' E without .
  | 69 => 0b10001011   -- 'E' E with .
  | 104 => 0b00001100  -- 'h' H without .
  | 72 => 0b10001100   -- 'H' H with .
  | 108 => 0b00001101  -- 'l' L without .
  | 76 => 0b10001101   -- 'L' L with .
  | 112 => 0b00001110  -- 'p'
  | 80 => 0b10001110   -- 'P'
  | _ => b

/-- The `while n > 0` loop of `base_10_bytes`: least-significant-first
ASCII decimal digits of `n`. -/
def base10Loop (n : Nat) : List Nat :=
  if h : n = 0 then []
  else (n % 10 + 48) :: base10Loop (n / 10)
decreasing_by exact Nat.div_lt_self (Nat.pos_of_ne_zero h) (by omega)

/-- `fn base_10_bytes(n: i32, buf) -> &[u8]`: the returned byte slice.
The source fills `buf` least-significant digit first, appends `'-'` for
negative inputs, and reverses the filled prefix; the returned slice is
exactly that reversed list. -/
def base_10_bytes (n : Int) : List Nat :=
  if n = 0 then [48]  -- b"0"
  else if n < -9999999 ∨ 99999999 < n then [69, 114, 114]  -- b"Err"
  else
    let sign : Bool := n < 0
    (base10Loop n.natAbs ++ if sign then [45] else []).reverse

/-- The `while n > 0` loop of `hex_bytes`: least-significant-first ASCII
lowercase hex digits of `n`. -/
def hexLoop (n : Nat) : List Nat :=
  if h : n = 0 then []
  else
    (match n % 16 with
     | 0 => 48 | 1 => 49 | 2 => 50 | 3 => 51 | 4 => 52 | 5 => 53
     | 6 => 54 | 7 => 55 | 8 => 56 | 9 => 57 | 10 => 97 | 11 => 98
     | 12 => 99 | 13 => 100 | 14 => 101 | 15 => 102 | _ => 63) ::
    hexLoop (n / 16)
decreasing_by exact Nat.div_lt_self (Nat.pos_of_ne_zero h) (by omega)

/-- `fn hex_bytes(n: u32, buf) -> &[u8]`. -/
def hex_bytes (n : Nat) : List Nat :=
  if n = 0 then [48] else (hexLoop n).reverse

/-- `fn pad_left(val: &[u8]) -> [u8; 8]`: right-justify `val` into an
8-byte buffer prefilled with ASCII spaces (`val.len() <= 8` asserted in
the source). -/
def pad_left (val : List Nat) : List Nat :=
  List.replicate (8 - val.length) 32 ++ val

/-- The SPI bus modelled as an oracle: the response to the `n`-th write
attempted since construction (`none` = success, `some e` = a transport
error of type `ε`). -/
def Bus (ε : Type) : Type := Nat → Option ε

/-- The driver struct `Max7219<SPI>`: the cached `decode_mode` field,
plus — standing in for the owned `spi` handle — the trace of two-byte
writes `(address, data)` attempted on the bus so far, oldest first. -/
structure Max7219 (ε : Type) where
  decode_mode : DecodeMode
  trace : List (Nat × Nat)
deriving DecidableEq, Repr

variable {ε : Type}

/-- `fn write_data(&mut self, command, data)`:
`self.spi.write(&[command.into(), data])`. The attempted write is
recorded on the trace whether or not the transport reports success. -/
def write_data (bus : Bus ε) (s : Max7219 ε) (command data : Nat) :
    Except ε Unit × Max7219 ε :=
  let s1 : Max7219 ε := ⟨s.decode_mode, s.trace ++ [(command, data)]⟩
  match bus s.trace.length with
  | none => (Except.ok (), s1)
  | some e => (Except.error e, s1)

/-- `fn power_on`. -/
def power_on (bus : Bus ε) (s : Max7219 ε) : Except ε Unit × Max7219 ε :=
  write_data bus s Command.Power.toU8 0x01

/-- `fn power_off`. -/
def power_off (bus : Bus ε) (s : Max7219 ε) : Except ε Unit × Max7219 ε :=
  write_data bus s Command.Power.toU8 0x00

/-- The `for i in 1..9` loop of `clear_display`, over the remaining
loop indices, with the `?` early return on a failed write. -/
def clear_loop (bus : Bus ε) :
    Max7219 ε → List Nat → Except ε Unit × Max7219 ε
  | s, [] => (Except.ok (), s)
  | s, i :: rest =>
    match write_data bus s i 0x00 with
    | (Except.ok _, s1) => clear_loop bus s1 rest
    | (Except.error e, s1) => (Except.error e, s1)

/-- `fn clear_display`: `for i in 1..9 { self.write_data(i, 0x00)?; }`. -/
def clear_display (bus : Bus ε) (s : Max7219 ε) : Except ε Unit × Max7219 ε :=
  clear_loop bus s (List.range' 1 8)

/-- `fn set_intensity`. -/
def set_intensity (bus : Bus ε) (s : Max7219 ε) (intensity : Nat) :
    Except ε Unit × Max7219 ε :=
  write_data bus s Command.Intensity.toU8 intensity

/-- `fn set_decode_mode`: `self.decode_mode = mode;` (store what we set)
and then the DecodeMode-register write. -/
def set_decode_mode (bus : Bus ε) (s : Max7219 ε) (mode : DecodeMode) :
    Except ε Unit × Max7219 ε :=
  write_data bus ⟨mode, s.trace⟩ Command.DecodeMode.toU8 mode.toU8

/-- The `for b in string` loop of `write_str`, carrying the mutable
`digit` and `dot_product` counters; `dot` is tested against the current
`dot_product` before it is shifted right. -/
def write_str_loop (bus : Bus ε) (dots : Nat) :
    Max7219 ε → List Nat → Nat → Nat → Except ε Unit × Max7219 ε
  | s, [], _, _ => (Except.ok (), s)
  | s, b :: rest, digit, dot_product =>
    let dot : Bool := decide (0 < dots &&& dot_product)
    match write_data bus s digit (ssb_byte b dot) with
    | (Except.ok _, s1) =>
        write_str_loop bus dots s1 rest (digit - 1) (dot_product >>> 1)
    | (Except.error e, s1) => (Except.error e, s1)

/-- `fn write_str(&mut self, string: &[u8; 8], dots: u8)`: save the
cached mode, force `NoDecode`, run the digit loop from `digit = 8`,
`dot_product = 0b1000_0000`, then restore the saved mode; every step
propagates a transport error immediately via `?`. -/
def write_str (bus : Bus ε) (s : Max7219 ε) (string : List Nat)
    (dots : Nat) : Except ε Unit × Max7219 ε :=
  let prev_dm := s.decode_mode
  match set_decode_mode bus s DecodeMode.NoDecode with
  | (Except.error e, s1) => (Except.error e, s1)
  | (Except.ok _, s1) =>
    match write_str_loop bus dots s1 string MAX_DIGITS 0b10000000 with
    | (Except.error e, s2) => (Except.error e, s2)
    | (Except.ok _, s2) => set_decode_mode bus s2 prev_dm

/-- The `for b in bcd` loop of `write_bcd`, carrying the mutable
`digit` counter. -/
def write_bcd_loop (bus : Bus ε) :
    Max7219 ε → List Nat → Nat → Except ε Unit × Max7219 ε
  | s, [], _ => (Except.ok (), s)
  | s, b :: rest, digit =>
    match write_data bus s digit (bcd_byte b) with
    | (Except.ok _, s1) => write_bcd_loop bus s1 rest (digit - 1)
    | (Except.error e, s1) => (Except.error e, s1)

/-- `fn write_bcd(&mut self, bcd: &[u8; 8])`: save the cached mode,
force `CodeBDigits7_0`, run the digit loop from `digit = 8`, restore. -/
def write_bcd (bus : Bus ε) (s : Max7219 ε) (bcd : List Nat) :
    Except ε Unit × Max7219 ε :=
  let prev_dm := s.decode_mode
  match set_decode_mode bus s DecodeMode.CodeBDigits7_0 with
  | (Except.error e, s1) => (Except.error e, s1)
  | (Except.ok _, s1) =>
    match write_bcd_loop bus s1 bcd MAX_DIGITS with
    | (Except.error e, s2) => (Except.error e, s2)
    | (Except.ok _, s2) => set_decode_mode bus s2 prev_dm

/-- `fn write_integer(&mut self, value: i32)`:
`write_str(&pad_left(base_10_bytes(value, &mut buf)), 0b00000000)`. -/
def write_integer (bus : Bus ε) (s : Max7219 ε) (value : Int) :
    Except ε Unit × Max7219 ε :=
  write_str bus s (pad_left (base_10_bytes value)) 0b00000000

/-- `fn write_hex(&mut self, value: u32)`:
`write_str(&pad_left(hex_bytes(value, &mut buf)), 0b00000000)`. -/
def write_hex (bus : Bus ε) (s : Max7219 ε) (value : Nat) :
    Except ε Unit × Max7219 ε :=
  write_str bus s (pad_left (hex_bytes value)) 0b00000000

/-- The `for (n, b) in raw.iter().enumerate()` loop of `write_raw`,
carrying the enumeration index `n`. -/
def write_raw_loop (bus : Bus ε) :
    Max7219 ε → List Nat → Nat → Except ε Unit × Max7219 ε
  | s, [], _ => (Except.ok (), s)
  | s, b :: rest, n =>
    match write_data bus s (n + 1) b with
    | (Except.ok _, s1) => write_raw_loop bus s1 rest (n + 1)
    | (Except.error e, s1) => (Except.error e, s1)

/-- `fn write_raw(&mut self, raw: &[u8; 8])`: save the cached mode,
force `NoDecode`, write byte `n` to register `n + 1` in ascending
order, then restore the saved mode. -/
def write_raw (bus : Bus ε) (s : Max7219 ε) (raw : List Nat) :
    Except ε Unit × Max7219 ε :=
  let prev_dm := s.decode_mode
  match set_decode_mode bus s DecodeMode.NoDecode with
  | (Except.error e, s1) => (Except.error e, s1)
  | (Except.ok _, s1) =>
    match write_raw_loop bus s1 raw 0 with
    | (Except.error e, s2) => (Except.error e, s2)
    | (Except.ok _, s2) => set_decode_mode bus s2 prev_dm

/-- `fn set_test(&mut self, is_on: bool)`. -/
def set_test (bus : Bus ε) (s : Max7219 ε) ( is_on : Bool) :
    Except ε Unit × Max7219 ε :=
  write_data bus s Command.DisplayTest.toU8 (if is_on then 0x01 else 0x00)

/-- `async fn init(&mut self)`: test off, scan limit `0x07`, decode mode
`NoDecode`, clear display, power off — each step propagating a
transport error via `?`. -/
def init (bus : Bus ε) (s : Max7219 ε) : Except ε Unit × Max7219 ε :=
  match set_test bus s false with
  | (Except.error e, s1) => (Except.error e, s1)
  | (Except.ok _, s1) =>
  match write_data bus s1 Command.ScanLimit.toU8 0x07 with
  | (Except.error e, s2) => (Except.error e, s2)
  | (Except.ok _, s2) =>
  match set_decode_mode bus s2 DecodeMode.NoDecode with
  | (Except.error e, s3) => (Except.error e, s3)
  | (Except.ok _, s3) =>
  match clear_display bus s3 with
  | (Except.error e, s4) => (Except.error e, s4)
  | (Except.ok _, s4) =>
  match power_off bus s4 with
  | (Except.error e, s5) => (Except.error e, s5)
  | (Except.ok _, s5) => (Except.ok (), s5)

/-- `pub async fn new(spi: SPI) -> Result<Self, SPI::Error>`: build the
driver with `decode_mode: DecodeMode::NoDecode`, run `init`, and yield
the driver only when `init` succeeded, otherwise the first error. -/
def new (bus : Bus ε) : Except ε (Max7219 ε) :=
  let max7219 : Max7219 ε := ⟨DecodeMode.NoDecode, []⟩
  match init bus max7219 with
  | (Except.ok _, s) => Except.ok s
  | (Except.error e, _) => Except.error e

/-- The bus oracle on which every write succeeds. -/
def allOk : Bus ε := fun _ => none

/-- The bus oracle that fails exactly the `n`-th write attempt with
error `e` and lets every other write succeed. -/
def failAt (n : Nat) (e : ε) : Bus ε :=
  fun i => if i = n then some e else none

/-- The data byte of the most recent write to the DecodeMode register
(address `0x09`) in a trace, if any. -/
def lastDM (t : List (Nat × Nat)) : Option Nat :=
  ((t.filter fun w => w.1 == 9).getLast?).map Prod.snd

/-- The cached-decode-mode invariant: the `decode_mode` field equals the
data byte of the DecodeMode-register write most recently sent over the
bus. -/
def dmCached (s : Max7219 ε) : Prop :=
  lastDM s.trace = some s.decode_mode.toU8

instance (s : Max7219 ε) : Decidable (dmCached s) :=
  decidable_of_iff (lastDM s.trace = some s.decode_mode.toU8) Iff.rfl

/-- Spec-side description of the digit-register writes a successful
`write_str string dots` issues between its two DecodeMode writes: input
index `i` goes to register `Digit(7-i)` (address `8 - i`), carrying the
segment encoding of byte `i` with dot bit `7 - i` of `dots`. -/
def strDigitWrites (string : List Nat) (dots : Nat) : List (Nat × Nat) :=
  (List.range 8).map fun i =>
    (8 - i, ssb_byte (string.getD i 0) (dots.testBit (7 - i)))

/-- Spec-side description of the digit-register writes a successful
`write_raw raw` issues: byte `i` to register `Digit(i)` (address
`i + 1`), ascending. -/
def rawDigitWrites (raw : List Nat) : List (Nat × Nat) :=
  (List.range 8).map fun i => (i + 1, raw.getD i 0)

/-- The full ordered write sequence a successful `init` issues:
display-test off, scan limit `0x07`, decode mode `0x00`, eight zero
digit writes, power off. -/
def initWrites : List (Nat × Nat) :=
  [(0x0F, 0x00), (0x0B, 0x07), (0x09, 0x00),
   (1, 0x00), (2, 0x00), (3, 0x00), (4, 0x00),
   (5, 0x00), (6, 0x00), (7, 0x00), (8, 0x00),
   (0x0C, 0x00)]

/-- The write sequence claim C2 predicts verbatim: for input index `i`,
the dot is taken from bit `i` of `dots` (least-significant-bit-first
numbering, as used by the wire-protocol table). -/
def strDigitWritesClaimed (string : List Nat) (dots : Nat) : List (Nat × Nat) :=
  (List.range 8).map fun i =>
    (8 - i, ssb_byte (string.getD i 0) (dots.testBit i))

/-- Pure description of the writes `write_str_loop` attempts when every
write succeeds, carrying the same `digit` and `dot_product` counters. -/
def strLoopWrites (dots : Nat) : List Nat → Nat → Nat → List (Nat × Nat)
  | [], _, _ => []
  | b :: rest, digit, dot_product =>
    (digit, ssb_byte b (decide (0 < dots &&& dot_product))) ::
      strLoopWrites dots rest (digit - 1) (dot_product >>> 1)

/-- Pure description of the writes `write_bcd_loop` attempts when every
write succeeds. -/
def bcdLoopWrites : List Nat → Nat → List (Nat × Nat)
  | [], _ => []
  | b :: rest, digit => (digit, bcd_byte b) :: bcdLoopWrites rest (digit - 1)

/-- Pure description of the writes `write_raw_loop` attempts when every
write succeeds. -/
def rawLoopWrites : List Nat → Nat → List (Nat × Nat)
  | [], _ => []
  | b :: rest, n => (n + 1, b) :: rawLoopWrites rest (n + 1)

theorem write_data_allOk (s : Max7219 ε) (c d : Nat) :
    write_data allOk s c d =
      (Except.ok (), ⟨s.decode_mode, s.trace ++ [(c, d)]⟩) := rfl

theorem set_decode_mode_allOk (s : Max7219 ε) (m : DecodeMode) :
    set_decode_mode allOk s m =
      (Except.ok (), ⟨m, s.trace ++ [(9, m.toU8)]⟩) := rfl

theorem clear_loop_allOk (l : List Nat) :
    ∀ s : Max7219 ε, clear_loop allOk s l =
      (Except.ok (), ⟨s.decode_mode, s.trace ++ l.map fun i => (i, 0)⟩) := by
  induction l with
  | nil => intro s; simp [clear_loop]
  | cons i rest ih =>
      intro s
      simp [clear_loop, write_data_allOk, ih]

theorem write_str_loop_allOk (dots : Nat) (l : List Nat) :
    ∀ (s : Max7219 ε) (digit dp : Nat),
      write_str_loop allOk dots s l digit dp =
        (Except.ok (), ⟨s.decode_mode,
          s.trace ++ strLoopWrites dots l digit dp⟩) := by
  induction l with
  | nil => intro s digit dp; simp [write_str_loop, strLoopWrites]
  | cons b rest ih =>
      intro s digit dp
      simp [write_str_loop, strLoopWrites, write_data_allOk, ih]

theorem write_bcd_loop_allOk (l : List Nat) :
    ∀ (s : Max7219 ε) (digit : Nat),
      write_bcd_loop allOk s l digit =
        (Except.ok (), ⟨s.decode_mode,
          s.trace ++ bcdLoopWrites l digit⟩) := by
  induction l with
  | nil => intro s digit; simp [write_bcd_loop, bcdLoopWrites]
  | cons b rest ih =>
      intro s digit
      simp [write_bcd_loop, bcdLoopWrites, write_data_allOk, ih]

theorem write_raw_loop_allOk (l : List Nat) :
    ∀ (s : Max7219 ε) (n : Nat),
      write_raw_loop allOk s l n =
        (Except.ok (), ⟨s.decode_mode,
          s.trace ++ rawLoopWrites l n⟩) := by
  induction l with
  | nil => intro s n; simp [write_raw_loop, rawLoopWrites]
  | cons b rest ih =>
      intro s n
      simp [write_raw_loop, rawLoopWrites, write_data_allOk, ih]

theorem write_str_allOk (s : Max7219 ε) (string : List Nat) (dots : Nat) :
    write_str allOk s string dots =
      (Except.ok (), ⟨s.decode_mode,
        s.trace ++ [(9, 0)] ++ strLoopWrites dots string 8 128 ++
          [(9, s.decode_mode.toU8)]⟩) := by
  simp [write_str, set_decode_mode_allOk, write_str_loop_allOk, MAX_DIGITS,
    DecodeMode.toU8]

theorem write_bcd_allOk (s : Max7219 ε) (bcd : List Nat) :
    write_bcd allOk s bcd =
      (Except.ok (), ⟨s.decode_mode,
        s.trace ++ [(9, 255)] ++ bcdLoopWrites bcd 8 ++
          [(9, s.decode_mode.toU8)]⟩) := by
  simp [write_bcd, set_decode_mode_allOk, write_bcd_loop_allOk, MAX_DIGITS,
    DecodeMode.toU8]

theorem write_raw_allOk (s : Max7219 ε) (raw : List Nat) :
    write_raw allOk s raw =
      (Except.ok (), ⟨s.decode_mode,
        s.trace ++ [(9, 0)] ++ rawLoopWrites raw 0 ++
          [(9, s.decode_mode.toU8)]⟩) := by
  simp [write_raw, set_decode_mode_allOk, write_raw_loop_allOk,
    DecodeMode.toU8]

theorem clear_display_allOk (s : Max7219 ε) :
    clear_display allOk s =
      (Except.ok (), ⟨s.decode_mode,
        s.trace ++ [(1, 0), (2, 0), (3, 0), (4, 0),
          (5, 0), (6, 0), (7, 0), (8, 0)]⟩) := by
  rw [clear_display, show List.range' 1 8 = [1, 2, 3, 4, 5, 6, 7, 8] from rfl,
    clear_loop_allOk]
  rfl

theorem init_allOk (s : Max7219 ε) :
    init allOk s =
      (Except.ok (), ⟨DecodeMode.NoDecode, s.trace ++ initWrites⟩) := by
  simp [init, set_test, power_off, write_data_allOk, set_decode_mode_allOk,
    clear_display_allOk, initWrites, Command.toU8, DecodeMode.toU8]

theorem lastDM_append_one (t : List (Nat × Nat)) (c d : Nat) :
    lastDM (t ++ [(c, d)]) = if c = 9 then some d else lastDM t := by
  unfold lastDM
  rw [List.filter_append]
  by_cases hc : c = 9
  · subst hc
    simp [List.getLast?_concat]
  · simp [hc]

/-- Both components of driver state that `dmCached` depends on are left
unchanged going from `s` to `s'`. -/
def presDM (s s' : Max7219 ε) : Prop :=
  s'.decode_mode = s.decode_mode ∧ lastDM s'.trace = lastDM s.trace

theorem presDM_refl (s : Max7219 ε) : presDM s s := ⟨rfl, rfl⟩

theorem presDM_trans {a b c : Max7219 ε} (h1 : presDM a b) (h2 : presDM b c) :
    presDM a c := ⟨h2.1.trans h1.1, h2.2.trans h1.2⟩

theorem dmCached_of_presDM {s s' : Max7219 ε} (h : presDM s s')
    (hs : dmCached s) : dmCached s' := by
  unfold dmCached at *
  rw [h.1, h.2]
  exact hs

theorem write_data_pres (bus : Bus ε) (s : Max7219 ε) (c d : Nat)
    (hc : c ≠ 9) : presDM s (write_data bus s c d).2 := by
  unfold write_data presDM
  cases h : bus s.trace.length <;> simp [h, lastDM_append_one, hc]

theorem set_decode_mode_state (bus : Bus ε) (s : Max7219 ε) (m : DecodeMode) :
    (set_decode_mode bus s m).2 = ⟨m, s.trace ++ [(9, m.toU8)]⟩ := by
  unfold set_decode_mode write_data
  cases h : bus s.trace.length <;> simp [h, Command.toU8]

theorem set_decode_mode_dmCached (bus : Bus ε) (s : Max7219 ε)
    (m : DecodeMode) : dmCached (set_decode_mode bus s m).2 := by
  rw [set_decode_mode_state]
  unfold dmCached
  simp [lastDM_append_one]

theorem clear_loop_pres (bus : Bus ε) (l : List Nat) (hl : ∀ i ∈ l, i ≠ 9) :
    ∀ s : Max7219 ε, presDM s (clear_loop bus s l).2 := by
  induction l with
  | nil => intro s; exact presDM_refl s
  | cons i rest ih =>
      intro s
      unfold clear_loop
      rcases hw : write_data bus s i 0x00 with ⟨r, s1⟩
      have hp1 : presDM s s1 := by
        have h := write_data_pres bus s i 0x00 (hl i (by simp))
        rwa [hw] at h
      cases r with
      | error e => simpa using hp1
      | ok u =>
          simp only []
          exact presDM_trans hp1 (ih (fun j hj => hl j (by simp [hj])) s1)

theorem write_str_loop_pres (bus : Bus ε) (dots : Nat) (l : List Nat) :
    ∀ (s : Max7219 ε) (digit dp : Nat), digit ≤ 8 →
      presDM s (write_str_loop bus dots s l digit dp).2 := by
  induction l with
  | nil => intro s digit dp _; exact presDM_refl s
  | cons b rest ih =>
      intro s digit dp hd
      simp only [write_str_loop]
      rcases hw : write_data bus s digit
          (ssb_byte b (decide (0 < dots &&& dp))) with ⟨r, s1⟩
      have hp1 : presDM s s1 := by
        have h := write_data_pres bus s digit
          (ssb_byte b (decide (0 < dots &&& dp))) (by omega)
        rwa [hw] at h
      cases r with
      | error e => simpa using hp1
      | ok u =>
          simp only []
          exact presDM_trans hp1 (ih s1 (digit - 1) (dp >>> 1) (by omega))

theorem write_bcd_loop_pres (bus : Bus ε) (l : List Nat) :
    ∀ (s : Max7219 ε) (digit : Nat), digit ≤ 8 →
      presDM s (write_bcd_loop bus s l digit).2 := by
  induction l with
  | nil => intro s digit _; exact presDM_refl s
  | cons b rest ih =>
      intro s digit hd
      unfold write_bcd_loop
      rcases hw : write_data bus s digit (bcd_byte b) with ⟨r, s1⟩
      have hp1 : presDM s s1 := by
        have h := write_data_pres bus s digit (bcd_byte b) (by omega)
        rwa [hw] at h
      cases r with
      | error e => simpa using hp1
      | ok u =>
          simp only []
          exact presDM_trans hp1 (ih s1 (digit - 1) (by omega))

theorem write_raw_loop_pres (bus : Bus ε) (l : List Nat) :
    ∀ (s : Max7219 ε) (n : Nat), n + l.length ≤ 8 →
      presDM s (write_raw_loop bus s l n).2 := by
  induction l with
  | nil => intro s n _; exact presDM_refl s
  | cons b rest ih =>
      intro s n hn
      unfold write_raw_loop
      rcases hw : write_data bus s (n + 1) b with ⟨r, s1⟩
      have hp1 : presDM s s1 := by
        have h := write_data_pres bus s (n + 1) b
          (by simp at hn; omega)
        rwa [hw] at h
      cases r with
      | error e => simpa using hp1
      | ok u =>
          simp only []
          exact presDM_trans hp1 (ih s1 (n + 1) (by simp at hn ⊢; omega))

theorem power_on_pres (bus : Bus ε) (s : Max7219 ε) :
    presDM s (power_on bus s).2 :=
  write_data_pres bus s Command.Power.toU8 0x01 (by decide)

theorem power_off_pres (bus : Bus ε) (s : Max7219 ε) :
    presDM s (power_off bus s).2 :=
  write_data_pres bus s Command.Power.toU8 0x00 (by decide)

theorem set_intensity_pres (bus : Bus ε) (s : Max7219 ε) (i : Nat) :
    presDM s (set_intensity bus s i).2 :=
  write_data_pres bus s Command.Intensity.toU8 i (by decide)

theorem set_test_pres (bus : Bus ε) (s : Max7219 ε) (b : Bool) :
    presDM s (set_test bus s b).2 :=
  write_data_pres bus s Command.DisplayTest.toU8 _ (by decide)

theorem clear_display_pres (bus : Bus ε) (s : Max7219 ε) :
    presDM s (clear_display bus s).2 :=
  clear_loop_pres bus (List.range' 1 8) (by decide) s

theorem write_str_dmCached (bus : Bus ε) (s : Max7219 ε)
    (string : List Nat) (dots : Nat) :
    dmCached (write_str bus s string dots).2 := by
  simp only [write_str]
  rcases h1 : set_decode_mode bus s DecodeMode.NoDecode with ⟨r1, s1⟩
  have hc1 : dmCached s1 := by
    have h := set_decode_mode_dmCached bus s DecodeMode.NoDecode
    rwa [h1] at h
  cases r1 with
  | error e => exact hc1
  | ok u =>
      dsimp only
      rcases h2 : write_str_loop bus dots s1 string MAX_DIGITS 128 with ⟨r2, s2⟩
      have hc2 : dmCached s2 := by
        have hp := write_str_loop_pres bus dots string s1 MAX_DIGITS 128
          (by decide)
        rw [h2] at hp
        exact dmCached_of_presDM hp hc1
      cases r2 with
      | error e => exact hc2
      | ok u2 => exact set_decode_mode_dmCached bus s2 s.decode_mode

theorem write_bcd_dmCached (bus : Bus ε) (s : Max7219 ε) (bcd : List Nat) :
    dmCached (write_bcd bus s bcd).2 := by
  simp only [write_bcd]
  rcases h1 : set_decode_mode bus s DecodeMode.CodeBDigits7_0 with ⟨r1, s1⟩
  have hc1 : dmCached s1 := by
    have h := set_decode_mode_dmCached bus s DecodeMode.CodeBDigits7_0
    rwa [h1] at h
  cases r1 with
  | error e => exact hc1
  | ok u =>
      dsimp only
      rcases h2 : write_bcd_loop bus s1 bcd MAX_DIGITS with ⟨r2, s2⟩
      have hc2 : dmCached s2 := by
        have hp := write_bcd_loop_pres bus bcd s1 MAX_DIGITS (by decide)
        rw [h2] at hp
        exact dmCached_of_presDM hp hc1
      cases r2 with
      | error e => exact hc2
      | ok u2 => exact set_decode_mode_dmCached bus s2 s.decode_mode

theorem write_raw_dmCached (bus : Bus ε) (s : Max7219 ε) (raw : List Nat)
    (hlen : raw.length ≤ 8) :
    dmCached (write_raw bus s raw).2 := by
  simp only [write_raw]
  rcases h1 : set_decode_mode bus s DecodeMode.NoDecode with ⟨r1, s1⟩
  have hc1 : dmCached s1 := by
    have h := set_decode_mode_dmCached bus s DecodeMode.NoDecode
    rwa [h1] at h
  cases r1 with
  | error e => exact hc1
  | ok u =>
      dsimp only
      rcases h2 : write_raw_loop bus s1 raw 0 with ⟨r2, s2⟩
      have hc2 : dmCached s2 := by
        have hp := write_raw_loop_pres bus raw s1 0 (by omega)
        rw [h2] at hp
        exact dmCached_of_presDM hp hc1
      cases r2 with
      | error e => exact hc2
      | ok u2 => exact set_decode_mode_dmCached bus s2 s.decode_mode

theorem write_integer_dmCached (bus : Bus ε) (s : Max7219 ε) (v : Int) :
    dmCached (write_integer bus s v).2 :=
  write_str_dmCached bus s (pad_left (base_10_bytes v)) 0

theorem write_hex_dmCached (bus : Bus ε) (s : Max7219 ε) (v : Nat) :
    dmCached (write_hex bus s v).2 :=
  write_str_dmCached bus s (pad_left (hex_bytes v)) 0

theorem init_ok_dmCached (bus : Bus ε) (s : Max7219 ε) :
    (init bus s).1 = Except.ok () → dmCached (init bus s).2 := by
  simp only [init]
  rcases h1 : set_test bus s false with ⟨r1, s1⟩
  cases r1 with
  | error e => intro h; simp at h
  | ok u1 =>
      dsimp only
      rcases h2 : write_data bus s1 Command.ScanLimit.toU8 0x07 with ⟨r2, s2⟩
      cases r2 with
      | error e => intro h; simp at h
      | ok u2 =>
          dsimp only
          rcases h3 : set_decode_mode bus s2 DecodeMode.NoDecode with ⟨r3, s3⟩
          have hc3 : dmCached s3 := by
            have h := set_decode_mode_dmCached bus s2 DecodeMode.NoDecode
            rwa [h3] at h
          cases r3 with
          | error e => intro h; simp at h
          | ok u3 =>
              dsimp only
              rcases h4 : clear_display bus s3 with ⟨r4, s4⟩
              have hc4 : dmCached s4 := by
                have hp := clear_display_pres bus s3
                rw [h4] at hp
                exact dmCached_of_presDM hp hc3
              cases r4 with
              | error e => intro h; simp at h
              | ok u4 =>
                  dsimp only
                  rcases h5 : power_off bus s4 with ⟨r5, s5⟩
                  have hc5 : dmCached s5 := by
                    have hp := power_off_pres bus s4
                    rw [h5] at hp
                    exact dmCached_of_presDM hp hc4
                  cases r5 with
                  | error e => intro h; simp at h
                  | ok u5 => intro _; exact hc5

theorem new_dmCached (bus : Bus ε) (s' : Max7219 ε)
    (h : new bus = Except.ok s') : dmCached s' := by
  simp only [new] at h
  rcases hi : init bus ⟨DecodeMode.NoDecode, []⟩ with ⟨r, si⟩
  rw [hi] at h
  cases r with
  | error e => simp at h
  | ok u =>
      simp at h
      subst h
      have := init_ok_dmCached bus ⟨DecodeMode.NoDecode, []⟩
      rw [hi] at this
      exact this rfl

theorem and_two_pow_pos (d k : Nat) :
    decide (0 < d &&& 2 ^ k) = d.testBit k := by
  cases h : d.testBit k <;> simp [Nat.and_two_pow, h, Nat.pos_pow_of_pos]

theorem list_length_eight {α : Type} (l : List α) (h : l.length = 8) :
    ∃ v0 v1 v2 v3 v4 v5 v6 v7, l = [v0, v1, v2, v3, v4, v5, v6, v7] := by
  cases l with
  | nil => exact absurd h (by simp)
  | cons v0 t =>
  cases t with
  | nil => exact absurd h (by simp)
  | cons v1 t =>
  cases t with
  | nil => exact absurd h (by simp)
  | cons v2 t =>
  cases t with
  | nil => exact absurd h (by simp)
  | cons v3 t =>
  cases t with
  | nil => exact absurd h (by simp)
  | cons v4 t =>
  cases t with
  | nil => exact absurd h (by simp)
  | cons v5 t =>
  cases t with
  | nil => exact absurd h (by simp)
  | cons v6 t =>
  cases t with
  | nil => exact absurd h (by simp)
  | cons v7 t =>
  cases t with
  | cons v8 t => exact absurd h (by simp)
  | nil => exact ⟨v0, v1, v2, v3, v4, v5, v6, v7, rfl⟩

theorem strLoopWrites_eq_spec (b0 b1 b2 b3 b4 b5 b6 b7 dots : Nat) :
    strLoopWrites dots [b0, b1, b2, b3, b4, b5, b6, b7] 8 128 =
      strDigitWrites [b0, b1, b2, b3, b4, b5, b6, b7] dots := by
  have t7 := and_two_pow_pos dots 7
  have t6 := and_two_pow_pos dots 6
  have t5 := and_two_pow_pos dots 5
  have t4 := and_two_pow_pos dots 4
  have t3 := and_two_pow_pos dots 3
  have t2 := and_two_pow_pos dots 2
  have t1 := and_two_pow_pos dots 1
  have t0 := and_two_pow_pos dots 0
  rw [show (2 : Nat) ^ 7 = 128 from by norm_num] at t7
  rw [show (2 : Nat) ^ 6 = 64 from by norm_num] at t6
  rw [show (2 : Nat) ^ 5 = 32 from by norm_num] at t5
  rw [show (2 : Nat) ^ 4 = 16 from by norm_num] at t4
  rw [show (2 : Nat) ^ 3 = 8 from by norm_num] at t3
  rw [show (2 : Nat) ^ 2 = 4 from by norm_num] at t2
  rw [show (2 : Nat) ^ 1 = 2 from by norm_num] at t1
  rw [pow_zero] at t0
  rw [show strDigitWrites [b0, b1, b2, b3, b4, b5, b6, b7] dots =
      [(8, ssb_byte b0 (dots.testBit 7)), (7, ssb_byte b1 (dots.testBit 6)),
       (6, ssb_byte b2 (dots.testBit 5)), (5, ssb_byte b3 (dots.testBit 4)),
       (4, ssb_byte b4 (dots.testBit 3)), (3, ssb_byte b5 (dots.testBit 2)),
       (2, ssb_byte b6 (dots.testBit 1)), (1, ssb_byte b7 (dots.testBit 0))]
    from rfl]
  rw [show strLoopWrites dots [b0, b1, b2, b3, b4, b5, b6, b7] 8 128 =
      [(8, ssb_byte b0 (decide (0 < dots &&& 128))),
       (7, ssb_byte b1 (decide (0 < dots &&& 64))),
       (6, ssb_byte b2 (decide (0 < dots &&& 32))),
       (5, ssb_byte b3 (decide (0 < dots &&& 16))),
       (4, ssb_byte b4 (decide (0 < dots &&& 8))),
       (3, ssb_byte b5 (decide (0 < dots &&& 4))),
       (2, ssb_byte b6 (decide (0 < dots &&& 2))),
       (1, ssb_byte b7 (decide (0 < dots &&& 1)))]
    from rfl]
  rw [t7, t6, t5, t4, t3, t2, t1, t0]

/-- Spec-side definition: the minimal most-significant-first ASCII
decimal digit sequence of a natural number (empty for 0). -/
def msbDigits (m : Nat) : List Nat :=
  if h : m = 0 then []
  else msbDigits (m / 10) ++ [m % 10 + 48]
decreasing_by exact Nat.div_lt_self (Nat.pos_of_ne_zero h) (by omega)

/-- Reading a most-significant-first ASCII digit list back as a number. -/
def digitsVal (l : List Nat) : Nat :=
  l.foldl (fun a d => a * 10 + (d - 48)) 0

theorem base10Loop_reverse (m : Nat) :
    (base10Loop m).reverse = msbDigits m := by
  induction m using Nat.strong_induction_on with
  | _ m ih =>
    by_cases h : m = 0
    · subst h
      rw [base10Loop, msbDigits]
      simp
    · rw [base10Loop, msbDigits]
      simp only [h, dite_false]
      rw [List.reverse_cons,
        ih (m / 10) (Nat.div_lt_self (Nat.pos_of_ne_zero h) (by omega))]

theorem digitsVal_append_digit (l : List Nat) (d : Nat) :
    digitsVal (l ++ [d]) = digitsVal l * 10 + (d - 48) := by
  unfold digitsVal
  rw [List.foldl_append]
  rfl

theorem msbDigits_val (m : Nat) : digitsVal (msbDigits m) = m := by
  induction m using Nat.strong_induction_on with
  | _ m ih =>
    by_cases h : m = 0
    · subst h
      rw [msbDigits]
      simp [digitsVal]
    · rw [msbDigits]
      simp only [h, dite_false]
      rw [digitsVal_append_digit,
        ih (m / 10) (Nat.div_lt_self (Nat.pos_of_ne_zero h) (by omega))]
      omega

theorem msbDigits_head (m : Nat) (hm : m ≠ 0) :
    (msbDigits m).head? ≠ some 48 := by
  induction m using Nat.strong_induction_on with
  | _ m ih =>
    rw [msbDigits]
    simp only [hm, dite_false]
    by_cases h10 : m / 10 = 0
    · rw [h10]
      rw [msbDigits]
      simp only [dite_true]
      simp only [List.nil_append, List.head?]
      intro hcon
      simp at hcon
      omega
    · have hne : msbDigits (m / 10) ≠ [] := by
        rw [msbDigits]
        simp [h10]
      rcases hx : msbDigits (m / 10) with _ | ⟨x, xs⟩
      · exact absurd hx hne
      · have := ih (m / 10) (Nat.div_lt_self (Nat.pos_of_ne_zero hm) (by omega)) h10
        rw [hx] at this
        simpa using this

theorem msbDigits_mem (m : Nat) :
    ∀ d ∈ msbDigits m, 48 ≤ d ∧ d ≤ 57 := by
  induction m using Nat.strong_induction_on with
  | _ m ih =>
    by_cases h : m = 0
    · subst h; rw [msbDigits]; simp
    · rw [msbDigits]
      simp only [h, dite_false]
      intro d hd
      rcases List.mem_append.mp hd with hmem | hmem
      · exact ih (m / 10) (Nat.div_lt_self (Nat.pos_of_ne_zero h) (by omega)) d hmem
      · simp at hmem
        have : m % 10 < 10 := Nat.mod_lt m (by omega)
        omega

/-- The bytes given a dedicated (non-fallback) branch in `ssb_byte`. -/
def ssbTable : List Nat :=
  [32, 46, 45, 95, 48, 49, 50, 51, 52, 53, 54, 55, 56, 57,
   97, 65, 98, 99, 67, 100, 101, 69, 102, 70, 103, 71, 104, 72,
   105, 73, 106, 74, 108, 76, 110, 78, 111, 79, 112, 80, 113,
   114, 82, 115, 83, 117, 85]

/-- The (uppercase, lowercase) letter pairs that share one dedicated
`ssb_byte` branch in the source. -/
def casePairs : List (Nat × Nat) :=
  [(65, 97), (67, 99), (69, 101), (70, 102), (71, 103), (72, 104),
   (73, 105), (74, 106), (76, 108), (78, 110), (79, 111), (80, 112),
   (82, 114), (83, 115), (85, 117)]

set_option maxRecDepth 8192 in
theorem ssb_byte_bit7_all : ∀ b < 256,
    ssb_byte b true = ssb_byte b false ||| 128 ∧
    ((ssb_byte b false).testBit 7 = true ↔ b = 46 ∨ b ∉ ssbTable) := by
  decide

/-- C6 (amended): for every byte `b`, the segment encoder satisfies
`ssb_byte b true = ssb_byte b false ||| 0x80` — bit 7 is set whenever
`dot` is true — but with `dot = false` bit 7 is *also* set exactly when
`b` is `'.'` (0x2E, whose dedicated pattern is `0b1000_0000`) or `b` is
outside the supported table (fallback glyph `0b1110_0101`); so bit 7
set is not equivalent to `dot` being true. -/
theorem ssb_byte_dot_bit7 (b : Nat) (hb : b < 256) :
    ssb_byte b true = ssb_byte b false ||| 128 ∧
    ((ssb_byte b false).testBit 7 = true ↔ b = 46 ∨ b ∉ ssbTable) :=
  ssb_byte_bit7_all b hb

theorem ssb_byte_dot_bit7_witness :
    48 < 256 ∧
    (ssb_byte 48 true = ssb_byte 48 false ||| 128 ∧
      ((ssb_byte 48 false).testBit 7 = true ↔ 48 = 46 ∨ 48 ∉ ssbTable)) :=
  ⟨by decide, ssb_byte_dot_bit7 48 (by decide)⟩

/-- C6 as stated is false: `ssb_byte '.' false = 0b1000_0000` and the
fallback glyph `ssb_byte '@' false = 0b1110_0101` both have bit 7 set
although `dot` is false. -/
theorem ssb_byte_dot_bit7_cex :
    ssb_byte 46 false = 128 ∧ (ssb_byte 46 false).testBit 7 = true ∧
    ssb_byte 64 false = 229 ∧ (ssb_byte 64 false).testBit 7 = true := by
  decide

set_option maxRecDepth 8192 in
/-- C7 (amended): the uppercase/lowercase letter pairs sharing one
dedicated branch are exactly `A,C,E,F,G,H,I,J,L,N,O,P,R,S,U`; the
lowercase letters `b`, `d`, `q` have dedicated patterns but their
uppercase forms `B`, `D`, `Q` fall through to the error glyph
`0b1110_0101`; `I`/`i` render as `'1'` and `O`/`o` as `'0'`; and every
byte outside the supported table maps to the error glyph. -/
theorem ssb_byte_letter_map :
    (∀ p ∈ casePairs,
      ssb_byte p.1 false = ssb_byte p.2 false ∧ ssb_byte p.1 false ≠ 229) ∧
    ssb_byte 98 false ≠ 229 ∧
    ssb_byte 100 false ≠ 229 ∧
    ssb_byte 113 false ≠ 229 ∧
    ssb_byte 66 false = 229 ∧
    ssb_byte 68 false = 229 ∧
    ssb_byte 81 false = 229 ∧
    ssb_byte 73 false = ssb_byte 49 false ∧
    ssb_byte 105 false = ssb_byte 49 false ∧
    ssb_byte 79 false = ssb_byte 48 false ∧
    ssb_byte 111 false = ssb_byte 48 false ∧
    (∀ b < 256, b ∉ ssbTable → ssb_byte b false = 229) := by
  decide

/-- C7 as stated is false: `'B'` is in the claimed letter set, but the
encoder maps `'B'` to the fallback glyph `0b1110_0101` while `'b'` has
the dedicated pattern `0b0001_1111`. -/
theorem ssb_byte_letter_map_cex :
    ssb_byte 66 false = 229 ∧ ssb_byte 98 false = 31 ∧
    ssb_byte 66 false ≠ ssb_byte 98 false := by
  decide

/-- C5: `base_10_bytes` returns `b"0"` for 0, the sentinel `b"Err"` for
nonzero values outside `[-9999999, 99999999]`, and otherwise the
minimal most-significant-first decimal digit string with a leading
`'-'` for negatives (no leading zero, digits only, and reading the
digits back yields `|n|`). Hypotheses restrict `n` to the `i32` domain
of the source. -/
theorem base_10_bytes_spec (n : Int) (h32lo : -(2 ^ 31) ≤ n)
    (h32hi : n < 2 ^ 31) :
    (n = 0 → base_10_bytes n = [48]) ∧
    ((n < -9999999 ∨ 99999999 < n) → base_10_bytes n = [69, 114, 114]) ∧
    (n ≠ 0 → -9999999 ≤ n → n ≤ 99999999 →
      base_10_bytes n = (if n < 0 then [45] else []) ++ msbDigits n.natAbs ∧
      digitsVal (msbDigits n.natAbs) = n.natAbs ∧
      (msbDigits n.natAbs).head? ≠ some 48 ∧
      ∀ d ∈ msbDigits n.natAbs, 48 ≤ d ∧ d ≤ 57) := by
  refine ⟨?_, ?_, ?_⟩
  · intro h
    subst h
    rfl
  · intro h
    have hn0 : n ≠ 0 := by omega
    rw [base_10_bytes, if_neg hn0, if_pos h]
  · intro hn0 hlo hhi
    have hrange : ¬(n < -9999999 ∨ 99999999 < n) := by omega
    refine ⟨?_, msbDigits_val n.natAbs,
      msbDigits_head n.natAbs (Int.natAbs_ne_zero.mpr hn0),
      msbDigits_mem n.natAbs⟩
    rw [base_10_bytes, if_neg hn0, if_neg hrange]
    simp only [List.reverse_append]
    by_cases hneg : n < 0 <;>
      simp [hneg, base10Loop_reverse]

theorem base_10_bytes_spec_witness :
    (-(2 ^ 31) ≤ (-5 : Int)) ∧ ((-5 : Int) < 2 ^ 31) ∧
    (((-5 : Int) = 0 → base_10_bytes (-5) = [48]) ∧
     (((-5 : Int) < -9999999 ∨ (99999999 : Int) < -5) →
        base_10_bytes (-5) = [69, 114, 114]) ∧
     ((-5 : Int) ≠ 0 → (-9999999 : Int) ≤ -5 → (-5 : Int) ≤ 99999999 →
        base_10_bytes (-5) =
          (if (-5 : Int) < 0 then [45] else []) ++ msbDigits (-5 : Int).natAbs ∧
        digitsVal (msbDigits (-5 : Int).natAbs) = (-5 : Int).natAbs ∧
        (msbDigits (-5 : Int).natAbs).head? ≠ some 48 ∧
        ∀ d ∈ msbDigits (-5 : Int).natAbs, 48 ≤ d ∧ d ≤ 57)) :=
  ⟨by norm_num, by norm_num, base_10_bytes_spec (-5) (by norm_num) (by norm_num)⟩

/-- C2 (amended): on a fault-free bus, `write_str` brackets the digit
writes between a `NoDecode` write and a restore write, and for each
index `i` in `0..8` issues the two-byte write
`(Digit(7-i), ssb_byte string[i] (bit (7-i) of dots))`, in the order
`Digit7, Digit6, …, Digit0` — so input index 0 lands on the
highest-numbered digit register and the dot for input index `i` comes
from bit `7 - i` of `dots` (not bit `i` as the claim stated). -/
theorem write_str_digit_mapping (ε : Type) (s : Max7219 ε)
    (string : List Nat) (dots : Nat) (hlen : string.length = 8) :
    write_str allOk s string dots =
      (Except.ok (), ⟨s.decode_mode,
        s.trace ++ [(9, 0)] ++ strDigitWrites string dots ++
          [(9, s.decode_mode.toU8)]⟩) := by
  obtain ⟨b0, b1, b2, b3, b4, b5, b6, b7, rfl⟩ := list_length_eight string hlen
  rw [write_str_allOk, strLoopWrites_eq_spec]

theorem write_str_digit_mapping_witness :
    ([49, 50, 51, 52, 53, 54, 55, 56] : List Nat).length = 8 ∧
    write_str (allOk : Bus Unit) ⟨DecodeMode.NoDecode, []⟩
        [49, 50, 51, 52, 53, 54, 55, 56] 0 =
      (Except.ok (), ⟨DecodeMode.NoDecode,
        ([] : List (Nat × Nat)) ++ [(9, 0)] ++
          strDigitWrites [49, 50, 51, 52, 53, 54, 55, 56] 0 ++
          [(9, DecodeMode.NoDecode.toU8)]⟩) :=
  ⟨by decide, write_str_digit_mapping Unit ⟨DecodeMode.NoDecode, []⟩
      [49, 50, 51, 52, 53, 54, 55, 56] 0 (by decide)⟩

/-- C2 as stated is false: with the all-zeros string and `dots = 1`
(bit 0 set), the claim predicts the dot on input index 0 (the `Digit7`
write), but the driver puts it on input index 7 (the `Digit0` write). -/
theorem write_str_digit_mapping_cex :
    (write_str (allOk : Bus Unit) ⟨DecodeMode.NoDecode, []⟩
        [48, 48, 48, 48, 48, 48, 48, 48] 1).2.trace ≠
      [(9, 0)] ++ strDigitWritesClaimed [48, 48, 48, 48, 48, 48, 48, 48] 1 ++
        [(9, 0)] := by
  decide

/-- C3 (amended): a successful `init` issues exactly the ordered write
sequence display-test off, scan-limit `0x07`, decode-mode `0x00`
(NoDecode), eight zero writes to the digit registers, and power-off —
with no trailing power-on write — leaving the cached decode mode at
`NoDecode`. -/
theorem init_write_sequence (ε : Type) (s : Max7219 ε) :
    init allOk s =
      (Except.ok (), ⟨DecodeMode.NoDecode, s.trace ++ initWrites⟩) :=
  init_allOk s

/-- C3 as stated is false: the write sequence of a successful `init`
ends with the power-off write `(0x0C, 0x00)` and contains no power-on
write `(0x0C, 0x01)` at all. -/
theorem init_write_sequence_cex :
    (init (allOk : Bus Unit) ⟨DecodeMode.NoDecode, []⟩).2.trace.getLast? =
        some (12, 0) ∧
    (12, 1) ∉ (init (allOk : Bus Unit) ⟨DecodeMode.NoDecode, []⟩).2.trace := by
  decide

/-- C4 (amended): on a fault-free bus, `clear_display` issues exactly
the eight ascending zero digit writes — the digit-write portion of
`write_raw [0;8]` — while `write_raw [0;8]` additionally brackets them
with a `NoDecode` write and a restore write, so the two bus-write
sequences differ; both succeed and both leave the controller's cached
decode mode unchanged. -/
theorem clear_display_vs_write_raw (ε : Type) (s : Max7219 ε) :
    clear_display allOk s =
      (Except.ok (), ⟨s.decode_mode,
        s.trace ++ rawDigitWrites (List.replicate 8 0)⟩) ∧
    write_raw allOk s (List.replicate 8 0) =
      (Except.ok (), ⟨s.decode_mode,
        s.trace ++ [(9, 0)] ++ rawDigitWrites (List.replicate 8 0) ++
          [(9, s.decode_mode.toU8)]⟩) := by
  constructor
  · rw [show rawDigitWrites (List.replicate 8 0) =
        [(1, 0), (2, 0), (3, 0), (4, 0), (5, 0), (6, 0), (7, 0), (8, 0)]
      from rfl]
    exact clear_display_allOk s
  · rw [write_raw_allOk, show rawLoopWrites (List.replicate 8 0) 0 =
        rawDigitWrites (List.replicate 8 0) from rfl]

/-- C4 as stated is false: from the same starting state, the bus-write
sequences of `clear_display()` and `write_raw(&[0; 8])` differ —
`write_raw` issues two extra DecodeMode-register writes. -/
theorem clear_display_vs_write_raw_cex :
    (clear_display (allOk : Bus Unit) ⟨DecodeMode.NoDecode, []⟩).2.trace ≠
      (write_raw (allOk : Bus Unit) ⟨DecodeMode.NoDecode, []⟩
        (List.replicate 8 0)).2.trace := by
  decide

/-- C8: on a fault-free bus, `write_raw` issues its digit writes in
ascending register order — input byte `i` to register `Digit(i)`
(address `i + 1`) for `i` in `0..8`, the opposite index-to-register
mapping from `write_str` — bracketed by saving the cached mode, forcing
`NoDecode`, and restoring the saved mode afterwards. -/
theorem write_raw_digit_mapping (ε : Type) (s : Max7219 ε)
    (raw : List Nat) (hlen : raw.length = 8) :
    write_raw allOk s raw =
      (Except.ok (), ⟨s.decode_mode,
        s.trace ++ [(9, 0)] ++ rawDigitWrites raw ++
          [(9, s.decode_mode.toU8)]⟩) := by
  obtain ⟨r0, r1, r2, r3, r4, r5, r6, r7, rfl⟩ := list_length_eight raw hlen
  rw [write_raw_allOk, show rawLoopWrites [r0, r1, r2, r3, r4, r5, r6, r7] 0 =
      rawDigitWrites [r0, r1, r2, r3, r4, r5, r6, r7] from rfl]

theorem write_raw_digit_mapping_witness :
    ([10, 20, 30, 40, 50, 60, 70, 80] : List Nat).length = 8 ∧
    write_raw (allOk : Bus Unit) ⟨DecodeMode.CodeBDigits7_0, []⟩
        [10, 20, 30, 40, 50, 60, 70, 80] =
      (Except.ok (), ⟨DecodeMode.CodeBDigits7_0,
        ([] : List (Nat × Nat)) ++ [(9, 0)] ++
          rawDigitWrites [10, 20, 30, 40, 50, 60, 70, 80] ++
          [(9, DecodeMode.CodeBDigits7_0.toU8)]⟩) :=
  ⟨by decide, write_raw_digit_mapping Unit ⟨DecodeMode.CodeBDigits7_0, []⟩
      [10, 20, 30, 40, 50, 60, 70, 80] (by decide)⟩

theorem decide_mod_two_pos (d : Nat) :
    decide (0 < d % 2) = decide (d % 2 = 1) := by
  rcases Nat.mod_two_eq_zero_or_one d with h | h <;> simp [h]

/-- C9: if the transport fails at step `k` (0-indexed) of the ten bus
writes a `write_str` call makes, the call returns exactly that error
and its attempted-write trace is precisely the first `k + 1` writes of
the fault-free sequence — the failing attempt is the last one, every
later write (including the decode-mode restore) is skipped, and the
earlier writes remain issued. -/
theorem write_str_error_aborts (ε : Type) (e : ε) (dm : DecodeMode)
    (string : List Nat) (dots k : Nat) (hlen : string.length = 8)
    (hk : k < 10) :
    (write_str (failAt k e) ⟨dm, []⟩ string dots).1 = Except.error e ∧
    (write_str (failAt k e) ⟨dm, []⟩ string dots).2.trace =
      ([(9, 0)] ++ strDigitWrites string dots ++ [(9, dm.toU8)]).take (k + 1) := by
  obtain ⟨b0, b1, b2, b3, b4, b5, b6, b7, rfl⟩ := list_length_eight string hlen
  have t7 := and_two_pow_pos dots 7
  have t6 := and_two_pow_pos dots 6
  have t5 := and_two_pow_pos dots 5
  have t4 := and_two_pow_pos dots 4
  have t3 := and_two_pow_pos dots 3
  have t2 := and_two_pow_pos dots 2
  have t1 := and_two_pow_pos dots 1
  have t0 := and_two_pow_pos dots 0
  rw [show (2 : Nat) ^ 7 = 128 from by norm_num] at t7
  rw [show (2 : Nat) ^ 6 = 64 from by norm_num] at t6
  rw [show (2 : Nat) ^ 5 = 32 from by norm_num] at t5
  rw [show (2 : Nat) ^ 4 = 16 from by norm_num] at t4
  rw [show (2 : Nat) ^ 3 = 8 from by norm_num] at t3
  rw [show (2 : Nat) ^ 2 = 4 from by norm_num] at t2
  rw [show (2 : Nat) ^ 1 = 2 from by norm_num] at t1
  rw [pow_zero] at t0
  rw [show strDigitWrites [b0, b1, b2, b3, b4, b5, b6, b7] dots =
      [(8, ssb_byte b0 (dots.testBit 7)), (7, ssb_byte b1 (dots.testBit 6)),
       (6, ssb_byte b2 (dots.testBit 5)), (5, ssb_byte b3 (dots.testBit 4)),
       (4, ssb_byte b4 (dots.testBit 3)), (3, ssb_byte b5 (dots.testBit 2)),
       (2, ssb_byte b6 (dots.testBit 1)), (1, ssb_byte b7 (dots.testBit 0))]
    from rfl]
  interval_cases k <;>
    simp [write_str, write_str_loop, set_decode_mode, write_data, failAt,
      MAX_DIGITS, Command.toU8, DecodeMode.toU8, List.take,
      t7, t6, t5, t4, t3, t2, t1, t0, decide_mod_two_pos]

theorem write_str_error_aborts_witness :
    ([49, 50, 51, 52, 53, 54, 55, 56] : List Nat).length = 8 ∧ 3 < 10 ∧
    ((write_str (failAt 3 ()) ⟨DecodeMode.NoDecode, []⟩
        [49, 50, 51, 52, 53, 54, 55, 56] 0).1 = Except.error () ∧
     (write_str (failAt 3 ()) ⟨DecodeMode.NoDecode, []⟩
        [49, 50, 51, 52, 53, 54, 55, 56] 0).2.trace =
       ([(9, 0)] ++ strDigitWrites [49, 50, 51, 52, 53, 54, 55, 56] 0 ++
         [(9, DecodeMode.NoDecode.toU8)]).take (3 + 1)) :=
  ⟨by decide, by decide,
    write_str_error_aborts Unit () DecodeMode.NoDecode
      [49, 50, 51, 52, 53, 54, 55, 56] 0 3 (by decide) (by decide)⟩

/-- C10: `new(spi)` runs the full `init` sequence over the bus before
returning: on a fault-free bus it yields the driver with cached decode
mode `NoDecode` and the chip powered off (the final write of the
sequence is the power-off write `(0x0C, 0x00)`), and when any of the
twelve init writes fails it returns that transport error unchanged and
yields no driver. -/
theorem new_runs_init (ε : Type) (e : ε) :
    new (allOk : Bus ε) = Except.ok ⟨DecodeMode.NoDecode, initWrites⟩ ∧
    initWrites.getLast? = some (12, 0) ∧
    (∀ k, k < 12 → new (failAt k e) = Except.error e) := by
  refine ⟨rfl, rfl, ?_⟩
  intro k hk
  interval_cases k <;>
    simp [new, init, set_test, power_off, clear_display,
      show List.range' 1 8 = [1, 2, 3, 4, 5, 6, 7, 8] from rfl, clear_loop,
      set_decode_mode, write_data, failAt, Command.toU8, DecodeMode.toU8]

theorem new_runs_init_witness :
    (5 < 12) ∧ new (failAt 5 ()) = Except.error () :=
  ⟨by decide, (new_runs_init Unit ()).2.2 5 (by decide)⟩

/-- C1: the cached decode mode always equals the data byte of the
DecodeMode-register write most recently sent over the bus. Every
public operation preserves the invariant `dmCached` on any bus
behaviour, success or failure: the operations that write the
DecodeMode register (`set_decode_mode`, `write_str`, `write_bcd`,
`write_raw`, `write_integer`, `write_hex`) re-establish it
unconditionally because the field is stored at the very write that is
sent, and the remaining operations never touch the register or the
field; `new` yields only drivers satisfying it. (`write_raw` carries
the source's 8-byte-array bound as a hypothesis.) -/
theorem decode_mode_cache_invariant :
    (∀ (ε : Type) (bus : Bus ε) (s : Max7219 ε),
        dmCached s → dmCached (power_on bus s).2) ∧
    (∀ (ε : Type) (bus : Bus ε) (s : Max7219 ε),
        dmCached s → dmCached (power_off bus s).2) ∧
    (∀ (ε : Type) (bus : Bus ε) (s : Max7219 ε) (i : Nat),
        dmCached s → dmCached (set_intensity bus s i).2) ∧
    (∀ (ε : Type) (bus : Bus ε) (s : Max7219 ε) (b : Bool),
        dmCached s → dmCached (set_test bus s b).2) ∧
    (∀ (ε : Type) (bus : Bus ε) (s : Max7219 ε),
        dmCached s → dmCached (clear_display bus s).2) ∧
    (∀ (ε : Type) (bus : Bus ε) (s : Max7219 ε) (m : DecodeMode),
        dmCached (set_decode_mode bus s m).2) ∧
    (∀ (ε : Type) (bus : Bus ε) (s : Max7219 ε) (string : List Nat)
        (dots : Nat), dmCached (write_str bus s string dots).2) ∧
    (∀ (ε : Type) (bus : Bus ε) (s : Max7219 ε) (bcd : List Nat),
        dmCached (write_bcd bus s bcd).2) ∧
    (∀ (ε : Type) (bus : Bus ε) (s : Max7219 ε) (raw : List Nat),
        raw.length ≤ 8 → dmCached (write_raw bus s raw).2) ∧
    (∀ (ε : Type) (bus : Bus ε) (s : Max7219 ε) (v : Int),
        dmCached (write_integer bus s v).2) ∧
    (∀ (ε : Type) (bus : Bus ε) (s : Max7219 ε) (v : Nat),
        dmCached (write_hex bus s v).2) ∧
    (∀ (ε : Type) (bus : Bus ε) (s' : Max7219 ε),
        new bus = Except.ok s' → dmCached s') :=
  ⟨fun _ bus s h => dmCached_of_presDM (power_on_pres bus s) h,
   fun _ bus s h => dmCached_of_presDM (power_off_pres bus s) h,
   fun _ bus s i h => dmCached_of_presDM (set_intensity_pres bus s i) h,
   fun _ bus s b h => dmCached_of_presDM (set_test_pres bus s b) h,
   fun _ bus s h => dmCached_of_presDM (clear_display_pres bus s) h,
   fun _ bus s m => set_decode_mode_dmCached bus s m,
   fun _ bus s string dots => write_str_dmCached bus s string dots,
   fun _ bus s bcd => write_bcd_dmCached bus s bcd,
   fun _ bus s raw hlen => write_raw_dmCached bus s raw hlen,
   fun _ bus s v => write_integer_dmCached bus s v,
   fun _ bus s v => write_hex_dmCached bus s v,
   fun _ bus s' h => new_dmCached bus s' h⟩

theorem decode_mode_cache_invariant_witness :
    dmCached (⟨DecodeMode.CodeBDigits7_0, [(9, 255)]⟩ : Max7219 Unit) ∧
    dmCached (power_on (allOk : Bus Unit)
      ⟨DecodeMode.CodeBDigits7_0, [(9, 255)]⟩).2 :=
  ⟨by decide, decode_mode_cache_invariant.1 Unit allOk
      ⟨DecodeMode.CodeBDigits7_0, [(9, 255)]⟩ (by decide)⟩

theorem ssb_byte_letter_map_witness :
    (65, 97) ∈ casePairs ∧
    (ssb_byte (65, 97).1 false = ssb_byte (65, 97).2 false ∧
      ssb_byte (65, 97).1 false ≠ 229) :=
  ⟨by decide, ssb_byte_letter_map.1 (65, 97) (by decide)⟩
